import Mathlib

/-!
Verification of the thermal-printer-server core against its specification.

The Python sources are shallowly embedded:
* a decoded grayscale image (`PIL` mode `L`) is a `Grid`: width, height and a
  pixel-intensity function (column, row → 0..255, 0 = black);
* the flat pixel list `list(img.getdata())` consumed by the bitmap packer is a
  row-major lookup function `pixels : Nat → Nat`;
* Python byte strings become `List Nat`, Python strings become `List Char`
  where their content matters to a claim;
* JSON/Python runtime values in configuration payloads become `PyVal`;
* Python floats are modelled as rationals (`Rat`); `round` is Python's
  round-half-to-even;
* handlers that can answer an HTTP error become `Except String`-valued
  functions.
-/

namespace ThermalPrinter

/-! ## Bitmap packer (`image_to_tspl` in `src/print_server.py`)

`width_bytes = (width + 7) // 8`, and for each row the inner loops build one
byte per 8-pixel group, MSB first. -/

/-- `width_bytes = (width + 7) // 8`. -/
def widthBytes (width : Nat) : Nat := (width + 7) / 8

/-- Body of the innermost loop `for bit in range(8)` of `image_to_tspl`:
`pixel_col = byte_col + bit; if pixel_col < width and pixels[row_start + pixel_col] < 128:
byte_val |= 1 << (7 - bit)`. -/
def packStep (pixels : Nat → Nat) (width rowStart byteCol byteVal bit : Nat) : Nat :=
  let pixelCol := byteCol + bit
  if pixelCol < width then
    let pixelVal := pixels (rowStart + pixelCol)
    if pixelVal < 128 then byteVal ||| (1 <<< (7 - bit)) else byteVal
  else byteVal

/-- One packed byte: the inner loop `for bit in range(8)` starting from `byte_val = 0`. -/
def packByte (pixels : Nat → Nat) (width rowStart byteCol : Nat) : Nat :=
  (List.range 8).foldl (packStep pixels width rowStart byteCol) 0

/-- The bytes of one packed row: `byte_col` ranges over `range(0, padded_width, 8)`,
i.e. `8 * b` for `b < width_bytes`. -/
def packRow (pixels : Nat → Nat) (width row : Nat) : List Nat :=
  (List.range (widthBytes width)).map (fun b => packByte pixels width (row * width) (8 * b))

/-- The full packed buffer `bitmap_bytes`: the two outer loops of `image_to_tspl`,
appending one byte at a time. -/
def bitmapBytes (pixels : Nat → Nat) (width height : Nat) : List Nat :=
  (List.range height).foldl (fun acc row =>
    (List.range (widthBytes width)).foldl (fun acc2 b =>
      acc2 ++ [packByte pixels width (row * width) (8 * b)]) acc) []

/-- `img = Image.eval(img, lambda px: 255 - px)` — the inversion step. -/
def invertPixel (v : Nat) : Nat := 255 - v

/-- `img.point(lambda px: 0 if px < 128 else 255, "1")` — threshold quantization
to a 1-bit plane (0 = black, 255 = white). -/
def threshold1 (v : Nat) : Nat := if v < 128 then 0 else 255

/-- The numeric fields declared by the header line
`BITMAP {x},{y},{width_bytes},{height},0,`. -/
structure BitmapHeader where
  x : Int
  y : Int
  widthBytes : Nat
  height : Nat
  mode : Nat

/-- `image_to_tspl` of `src/print_server.py` (threshold path `dither=False`;
the Floyd–Steinberg path agrees with it on images whose pixels are already
pure black or white, which is all any claim evaluates): invert, quantize,
pack, and emit the `BITMAP` header fields. -/
def image_to_tspl (pixels : Nat → Nat) (width height : Nat) (x y : Int) :
    BitmapHeader × List Nat :=
  let inverted := fun i => invertPixel (pixels i)
  let plane := fun i => threshold1 (inverted i)
  ({ x := x, y := y, widthBytes := widthBytes width, height := height, mode := 0 },
   bitmapBytes plane width height)

/-! ### Packing lemmas -/

lemma testBit_packStep (p : Nat → Nat) (w rs bc acc bit j : Nat) :
    Nat.testBit (packStep p w rs bc acc bit) j =
      (acc.testBit j ||
        (decide (bc + bit < w) && decide (p (rs + (bc + bit)) < 128) && decide (7 - bit = j))) := by
  unfold packStep
  by_cases h1 : bc + bit < w
  · by_cases h2 : p (rs + (bc + bit)) < 128
    · simp [h1, h2, Nat.testBit_or, Nat.one_shiftLeft, Nat.testBit_two_pow]
    · simp [h1, h2]
  · simp [h1]

lemma packByte_testBit (p : Nat → Nat) (w rs bc k : Nat) (hk : k < 8) :
    Nat.testBit (packByte p w rs bc) (7 - k) =
      (decide (bc + k < w) && decide (p (rs + (bc + k)) < 128)) := by
  have e : packByte p w rs bc =
      packStep p w rs bc (packStep p w rs bc (packStep p w rs bc (packStep p w rs bc
        (packStep p w rs bc (packStep p w rs bc (packStep p w rs bc
          (packStep p w rs bc 0 0) 1) 2) 3) 4) 5) 6) 7 := rfl
  rw [e]
  simp only [testBit_packStep, Nat.zero_testBit, Bool.false_or]
  interval_cases k <;> simp

lemma foldl_append_singleton {α β : Type} (f : β → α) :
    ∀ (l : List β) (acc : List α),
      l.foldl (fun a i => a ++ [f i]) acc = acc ++ l.map f := by
  intro l
  induction l with
  | nil => intro acc; simp
  | cons x xs ih => intro acc; simp [ih]

lemma foldl_append_flatten {α β : Type} (g : β → List α) :
    ∀ (l : List β) (acc : List α),
      l.foldl (fun a i => a ++ g i) acc = acc ++ (l.map g).flatten := by
  intro l
  induction l with
  | nil => intro acc; simp
  | cons x xs ih => intro acc; simp [ih]

lemma bitmapBytes_eq_flatten (p : Nat → Nat) (w h : Nat) :
    bitmapBytes p w h = ((List.range h).map (packRow p w)).flatten := by
  unfold bitmapBytes packRow
  simp only [foldl_append_singleton]
  simpa using foldl_append_flatten
    (fun row => (List.range (widthBytes w)).map (fun b => packByte p w (row * w) (8 * b)))
    (List.range h) []

lemma flatten_map_range_length {α : Type} (g : Nat → List α) (L : Nat)
    (hg : ∀ i, (g i).length = L) :
    ∀ n, (((List.range n).map g).flatten).length = n * L := by
  intro n
  induction n with
  | zero => simp
  | succ m ih =>
    rw [List.range_succ]
    simp only [List.map_append, List.flatten_append, List.length_append, ih]
    simp [hg, Nat.succ_mul]

lemma flatten_map_range_getD {α : Type} (g : Nat → List α) (L : Nat)
    (hg : ∀ i, (g i).length = L) (d : α) :
    ∀ n r b, r < n → b < L →
      (((List.range n).map g).flatten).getD (r * L + b) d = (g r).getD b d := by
  intro n
  induction n with
  | zero => intro r b hr; omega
  | succ m ih =>
    intro r b hr hb
    rw [List.range_succ, List.map_append, List.flatten_append]
    rcases Nat.lt_or_ge r m with h | h
    · rw [List.getD_append]
      · exact ih r b h hb
      · rw [flatten_map_range_length g L hg m]
        calc r * L + b < r * L + L := by omega
          _ = (r + 1) * L := (Nat.succ_mul r L).symm
          _ ≤ m * L := Nat.mul_le_mul_right L h
    · have hrm : r = m := by omega
      rw [hrm]
      rw [List.getD_append_right]
      · rw [flatten_map_range_length g L hg m]
        have hidx : m * L + b - m * L = b := by omega
        rw [hidx]
        simp
      · rw [flatten_map_range_length g L hg m]
        omega

lemma packRow_length (p : Nat → Nat) (w row : Nat) :
    (packRow p w row).length = widthBytes w := by
  simp [packRow]

lemma bitmapBytes_getD (p : Nat → Nat) (w h row b : Nat)
    (hrow : row < h) (hb : b < widthBytes w) :
    (bitmapBytes p w h).getD (row * widthBytes w + b) 0 =
      packByte p w (row * w) (8 * b) := by
  rw [bitmapBytes_eq_flatten]
  rw [flatten_map_range_getD (packRow p w) (widthBytes w) (packRow_length p w) 0 h row b hrow hb]
  have hb' : b < (List.range (widthBytes w)).length := by simpa using hb
  rw [packRow, List.getD_eq_getElem _ _ (by simpa using hb)]
  simp

lemma bitmapBytes_length (p : Nat → Nat) (w h : Nat) :
    (bitmapBytes p w h).length = h * widthBytes w := by
  rw [bitmapBytes_eq_flatten]
  exact flatten_map_range_length (packRow p w) (widthBytes w) (packRow_length p w) h

/-! ### Claim theorems C1–C3 -/

/-- C1: for every 1-bit plane (pixel lookup `pixels`, a pixel is black iff its
value is `< 128`) of width `W` and height `H`, every row, every byte position
`b < widthBytes W` and every `k < 8`, bit `7-k` of the `b`-th byte of that row
of the packed buffer is set iff column `8b+k` lies within `[0, W)` and the
pixel there is black; in particular every `k` with `8b+k ≥ W` contributes a 0
bit, so the padding bits of the last byte of each row are always 0. -/
theorem bitmap_packing_bit_layout (pixels : Nat → Nat) (W H row b k : Nat)
    (hrow : row < H) (hb : b < widthBytes W) (hk : k < 8) :
    (Nat.testBit ((bitmapBytes pixels W H).getD (row * widthBytes W + b) 0) (7 - k)
        = (decide (8 * b + k < W) && decide (pixels (row * W + (8 * b + k)) < 128)))
    ∧ (W ≤ 8 * b + k →
        Nat.testBit ((bitmapBytes pixels W H).getD (row * widthBytes W + b) 0) (7 - k)
          = false) := by
  have h1 := bitmapBytes_getD pixels W H row b hrow hb
  constructor
  · rw [h1, packByte_testBit pixels W (row * W) (8 * b) k hk]
  · intro hW
    rw [h1, packByte_testBit pixels W (row * W) (8 * b) k hk]
    have : ¬ (8 * b + k < W) := by omega
    simp [this]

/-- Witness for C1: width 9, height 1, a single black pixel at column 0 sets
bit 7 of byte 0; columns at `8b+k ≥ 9` give 0 bits. -/
theorem bitmap_packing_bit_layout_witness :
    (Nat.testBit ((bitmapBytes (fun i => if i = 0 then 0 else 255) 9 1).getD
          (0 * widthBytes 9 + 1) 0) (7 - 1)
        = (decide (8 * 1 + 1 < 9) &&
            decide ((fun i => if i = 0 then 0 else 255) (0 * 9 + (8 * 1 + 1)) < 128)))
    ∧ (9 ≤ 8 * 1 + 1 →
        Nat.testBit ((bitmapBytes (fun i => if i = 0 then 0 else 255) 9 1).getD
            (0 * widthBytes 9 + 1) 0) (7 - 1) = false) :=
  bitmap_packing_bit_layout (fun i => if i = 0 then 0 else 255) 9 1 0 1 1
    (by decide) (by decide) (by decide)

/-- C2: quantizing (threshold mode) and packing any `W × H` grid yields exactly
`ceil(W/8) * H = widthBytes W * H` bytes, and the `BITMAP` header declares
exactly `widthBytes W` and `H`, matching the payload length. -/
theorem packed_buffer_length (pixels : Nat → Nat) (W H : Nat) (x y : Int) :
    (bitmapBytes (fun i => threshold1 (pixels i)) W H).length = widthBytes W * H
    ∧ (image_to_tspl pixels W H x y).1.widthBytes = widthBytes W
    ∧ (image_to_tspl pixels W H x y).1.height = H
    ∧ ((image_to_tspl pixels W H x y).2).length
        = (image_to_tspl pixels W H x y).1.widthBytes * (image_to_tspl pixels W H x y).1.height
    ∧ W ≤ 8 * widthBytes W ∧ 8 * widthBytes W < W + 8 := by
  refine ⟨?_, rfl, rfl, ?_, ?_, ?_⟩
  · rw [bitmapBytes_length]; exact Nat.mul_comm H (widthBytes W)
  · show (bitmapBytes _ W H).length = widthBytes W * H
    rw [bitmapBytes_length]; exact Nat.mul_comm H (widthBytes W)
  · show W ≤ 8 * ((W + 7) / 8); omega
  · show 8 * ((W + 7) / 8) < W + 8; omega

/-- Counterexample to C3 as stated: an all-black (intensity 0) 16×8 grid does
NOT pack to sixteen `0xFF` bytes — the pipeline inverts intensities first, so
black input pixels become non-printing 0 bits. -/
theorem end_to_end_polarity_counterexample :
    ¬ ((image_to_tspl (fun _ => 0) 16 8 0 0).2 = List.replicate 16 255
        ∧ (image_to_tspl (fun _ => 255) 16 8 0 0).2 = List.replicate 16 0) := by
  decide

/-- C3 amended: because `image_to_tspl` inverts intensities before
quantization, an all-black (intensity 0) 16×8 grid packs to exactly 16 bytes,
every byte `0x00`, and an all-white (intensity 255) 16×8 grid packs to exactly
16 bytes, every byte `0xFF`. -/
theorem end_to_end_polarity_amended :
    (image_to_tspl (fun _ => 0) 16 8 0 0).2 = List.replicate 16 0
    ∧ (image_to_tspl (fun _ => 255) 16 8 0 0).2 = List.replicate 16 255
    ∧ ((image_to_tspl (fun _ => 0) 16 8 0 0).2).length = 16
    ∧ ((image_to_tspl (fun _ => 255) 16 8 0 0).2).length = 16 := by
  decide

/-! ## Pixel preprocessor (`src/files/opt/thermal-printer/print_server.py`)

A decoded grayscale image is a `Grid`; `crop`, `paste` and `Image.new` are the
PIL collaborators the preprocessor calls, embedded with their documented
pixel-level semantics. -/

/-- A grayscale image: `pixel x y` is the intensity at column `x`, row `y`
(0 = black, 255 = white). Values outside `[0, width) × [0, height)` are
irrelevant; all statements quantify only over in-canvas coordinates. -/
structure Grid where
  width : Nat
  height : Nat
  pixel : Nat → Nat → Nat

/-- `Image.new('L', (w, h), fill)`. -/
def imageNew (w h fill : Nat) : Grid :=
  { width := w, height := h, pixel := fun _ _ => fill }

/-- `img.crop((left, top, right, bottom))`. -/
def crop (img : Grid) (left top right bottom : Nat) : Grid :=
  { width := right - left, height := bottom - top,
    pixel := fun x y => img.pixel (left + x) (top + y) }

/-- `dst.paste(src, (px, py))`. -/
def paste (dst src : Grid) (px py : Nat) : Grid :=
  { width := dst.width, height := dst.height,
    pixel := fun x y =>
      if px ≤ x ∧ x < px + src.width ∧ py ≤ y ∧ y < py + src.height then
        src.pixel (x - px) (y - py)
      else dst.pixel x y }

/-- `shift_image_horizontally(img, shift_px)`. -/
def shift_image_horizontally (img : Grid) (shift_px : Int) : Grid :=
  if shift_px = 0 then img
  else if (img.width : Int) ≤ |shift_px| then imageNew img.width img.height 255
  else if shift_px > 0 then
    let shifted := imageNew img.width img.height 255
    let source := crop img 0 0 (img.width - shift_px.toNat) img.height
    paste shifted source shift_px.toNat 0
  else
    let shifted := imageNew img.width img.height 255
    let shift_left := (-shift_px).toNat
    let source := crop img shift_left 0 img.width img.height
    paste shifted source 0 0

/-- `WHITE_THRESHOLD = 245`. -/
def WHITE_THRESHOLD : Nat := 245

/-- `MAX_TOP_TRIM_PX = 80`. -/
def MAX_TOP_TRIM_PX : Nat := 80

/-- Whether row `y` holds a content pixel, i.e. one whose intensity is
strictly below `WHITE_THRESHOLD` — a row the mask
`img.point(lambda p: 255 if p < WHITE_THRESHOLD else 0, '1')` keeps. -/
def rowHasContent (img : Grid) (y : Nat) : Bool :=
  (List.range img.width).any fun x => decide (img.pixel x y < WHITE_THRESHOLD)

/-- `mask.getbbox()`'s top edge `bbox[1]`: the first row containing a content
pixel, `none` when the mask is empty. -/
def contentTop? (img : Grid) : Option Nat :=
  (List.range img.height).find? fun y => rowHasContent img y

/-- `trim_top_whitespace(img)` (with `AUTO_TRIM_TOP_WHITESPACE = True`). -/
def trim_top_whitespace (img : Grid) : Grid :=
  match contentTop? img with
  | none => img
  | some top =>
    if top ≤ 0 then img
    else
      let trim_px := min top MAX_TOP_TRIM_PX
      crop img 0 trim_px img.width img.height

/-! ### Claim theorems C7 and C8 -/

/-- C7: `shift_image_horizontally` preserves the canvas dimensions; each
output pixel is the source pixel `delta` to its left when that source column
is on-canvas and white (255) otherwise — pixels moved off-canvas are
discarded and entering pixels are white, never wrapped; and whenever
`|delta| ≥ W` the whole canvas is white. -/
theorem shift_horizontal_bounds_and_fill (img : Grid) (delta : Int) :
    (shift_image_horizontally img delta).width = img.width
    ∧ (shift_image_horizontally img delta).height = img.height
    ∧ (∀ x y, x < img.width → y < img.height →
        (shift_image_horizontally img delta).pixel x y =
          if 0 ≤ (x : Int) - delta ∧ (x : Int) - delta < (img.width : Int) then
            img.pixel ((x : Int) - delta).toNat y
          else 255)
    ∧ ((img.width : Int) ≤ |delta| →
        ∀ x y, x < img.width → y < img.height →
          (shift_image_horizontally img delta).pixel x y = 255) := by
  unfold shift_image_horizontally
  by_cases h0 : delta = 0
  · subst h0
    rw [if_pos (rfl : (0 : Int) = 0)]
    refine ⟨rfl, rfl, ?_, ?_⟩
    · intro x y hx hy
      have hc : 0 ≤ (x : Int) - 0 ∧ (x : Int) - 0 < (img.width : Int) := by
        constructor <;> omega
      have hxe : ((x : Int) - 0).toNat = x := by omega
      rw [if_pos hc, hxe]
    · intro habs x y hx hy
      simp at habs
      omega
  · rw [if_neg h0]
    by_cases habs : (img.width : Int) ≤ |delta|
    · rw [if_pos habs]
      refine ⟨rfl, rfl, ?_, ?_⟩
      · intro x y hx hy
        have hc : ¬ (0 ≤ (x : Int) - delta ∧ (x : Int) - delta < (img.width : Int)) := by
          rcases abs_cases delta with ⟨he, _⟩ | ⟨he, _⟩ <;> omega
        rw [if_neg hc]
        rfl
      · intro _ x y hx hy
        rfl
    · rw [if_neg habs]
      by_cases hpos : delta > 0
      · rw [if_pos hpos]
        refine ⟨rfl, rfl, ?_, ?_⟩
        · intro x y hx hy
          show (if delta.toNat ≤ x ∧ x < delta.toNat + (img.width - delta.toNat - 0)
                  ∧ 0 ≤ y ∧ y < 0 + (img.height - 0) then
                img.pixel (0 + (x - delta.toNat)) (0 + (y - 0)) else 255) = _
          have habs' : delta.toNat < img.width := by
            rcases abs_cases delta with ⟨he, _⟩ | ⟨he, _⟩ <;> omega
          by_cases hc : delta.toNat ≤ x
          · have hl : delta.toNat ≤ x ∧ x < delta.toNat + (img.width - delta.toNat - 0)
                ∧ 0 ≤ y ∧ y < 0 + (img.height - 0) := by
              refine ⟨hc, by omega, by omega, by omega⟩
            have hr : 0 ≤ (x : Int) - delta ∧ (x : Int) - delta < (img.width : Int) := by
              constructor <;> omega
            have hxe : ((x : Int) - delta).toNat = 0 + (x - delta.toNat) := by omega
            have hye : (0 : Nat) + (y - 0) = y := by omega
            rw [if_pos hl, if_pos hr, hxe, hye]
          · have hl : ¬ (delta.toNat ≤ x ∧ x < delta.toNat + (img.width - delta.toNat - 0)
                ∧ 0 ≤ y ∧ y < 0 + (img.height - 0)) := by
              intro hcon; exact hc hcon.1
            have hr : ¬ (0 ≤ (x : Int) - delta ∧ (x : Int) - delta < (img.width : Int)) := by
              intro hcon; omega
            rw [if_neg hl, if_neg hr]
        · intro hcon; exact absurd hcon habs
      · rw [if_neg hpos]
        refine ⟨rfl, rfl, ?_, ?_⟩
        · intro x y hx hy
          show (if 0 ≤ x ∧ x < 0 + (img.width - (-delta).toNat)
                  ∧ 0 ≤ y ∧ y < 0 + (img.height - 0) then
                img.pixel ((-delta).toNat + (x - 0)) (0 + (y - 0)) else 255) = _
          have hneg : delta < 0 := by omega
          have habs' : (-delta).toNat < img.width := by
            rcases abs_cases delta with ⟨he, _⟩ | ⟨he, _⟩ <;> omega
          by_cases hc : x < img.width - (-delta).toNat
          · have hl : 0 ≤ x ∧ x < 0 + (img.width - (-delta).toNat)
                ∧ 0 ≤ y ∧ y < 0 + (img.height - 0) := by
              refine ⟨by omega, by omega, by omega, by omega⟩
            have hr : 0 ≤ (x : Int) - delta ∧ (x : Int) - delta < (img.width : Int) := by
              constructor <;> omega
            have hxe : ((x : Int) - delta).toNat = (-delta).toNat + (x - 0) := by omega
            have hye : (0 : Nat) + (y - 0) = y := by omega
            rw [if_pos hl, if_pos hr, hxe, hye]
          · have hl : ¬ (0 ≤ x ∧ x < 0 + (img.width - (-delta).toNat)
                ∧ 0 ≤ y ∧ y < 0 + (img.height - 0)) := by
              intro hcon; omega
            have hr : ¬ (0 ≤ (x : Int) - delta ∧ (x : Int) - delta < (img.width : Int)) := by
              intro hcon; omega
            rw [if_neg hl, if_neg hr]
        · intro hcon; exact absurd hcon habs

/-- Witness for C7: shifting a concrete 3×1 gradient right by 1 keeps the
dimensions, maps column 1 to old column 0 and fills column 0 with white. -/
theorem shift_horizontal_bounds_and_fill_witness :
    (shift_image_horizontally ⟨3, 1, fun x _ => 10 * x⟩ 1).width = 3
    ∧ (shift_image_horizontally ⟨3, 1, fun x _ => 10 * x⟩ 1).height = 1
    ∧ (∀ x y, x < 3 → y < 1 →
        (shift_image_horizontally ⟨3, 1, fun x _ => 10 * x⟩ 1).pixel x y =
          if 0 ≤ (x : Int) - 1 ∧ (x : Int) - 1 < ((3 : Nat) : Int) then
            (fun x _ => 10 * x) ((x : Int) - 1).toNat y
          else 255)
    ∧ (((3 : Nat) : Int) ≤ |(1 : Int)| →
        ∀ x y, x < 3 → y < 1 →
          (shift_image_horizontally ⟨3, 1, fun x _ => 10 * x⟩ 1).pixel x y = 255) :=
  shift_horizontal_bounds_and_fill ⟨3, 1, fun x _ => 10 * x⟩ 1

/-- C8: letting `top` be the first row holding a pixel strictly below the
white threshold 245, `trim_top_whitespace` removes exactly
`min top MAX_TOP_TRIM_PX` rows from the top, never alters the width, and
returns the grid unchanged when no content pixel exists. -/
theorem trim_top_whitespace_spec (img : Grid) :
    (contentTop? img = none → trim_top_whitespace img = img)
    ∧ (∀ t, contentTop? img = some t →
        (trim_top_whitespace img).width = img.width
        ∧ (trim_top_whitespace img).height = img.height - min t MAX_TOP_TRIM_PX
        ∧ (∀ x y, (trim_top_whitespace img).pixel x y =
            img.pixel x (y + min t MAX_TOP_TRIM_PX))) := by
  constructor
  · intro hnone
    unfold trim_top_whitespace
    rw [hnone]
  · intro t hsome
    have he : trim_top_whitespace img =
        if t ≤ 0 then img
        else crop img 0 (min t MAX_TOP_TRIM_PX) img.width img.height := by
      unfold trim_top_whitespace
      rw [hsome]
    rcases Nat.eq_zero_or_pos t with ht | ht
    · subst ht
      rw [he, if_pos (Nat.le_refl 0)]
      refine ⟨rfl, by simp, ?_⟩
      intro x y
      simp
    · rw [he, if_neg (by omega)]
      refine ⟨rfl, rfl, ?_⟩
      intro x y
      show img.pixel (0 + x) (min t MAX_TOP_TRIM_PX + y) = _
      have h1 : 0 + x = x := by omega
      have h2 : min t MAX_TOP_TRIM_PX + y = y + min t MAX_TOP_TRIM_PX := Nat.add_comm _ _
      rw [h1, h2]

set_option maxRecDepth 20000 in
/-- Witness for C8: a 1×501 grid whose content starts at row 500 is trimmed by
exactly `min 500 80 = 80` rows (height 421), width unchanged. -/
theorem trim_top_whitespace_spec_witness :
    ((trim_top_whitespace ⟨1, 501, fun _ y => if y < 500 then 255 else 0⟩).width = 1
    ∧ (trim_top_whitespace ⟨1, 501, fun _ y => if y < 500 then 255 else 0⟩).height
        = 501 - min 500 MAX_TOP_TRIM_PX
    ∧ (∀ x y, (trim_top_whitespace ⟨1, 501, fun _ y => if y < 500 then 255 else 0⟩).pixel x y =
        (fun _ y => if y < 500 then 255 else 0) x (y + min 500 MAX_TOP_TRIM_PX))) :=
  (trim_top_whitespace_spec ⟨1, 501, fun _ y => if y < 500 then 255 else 0⟩).2 500 (by decide)

/-! ## Geometry/offset state (`src/print_server.py`)

Configuration values live in a JSON dict; the typed state reachable through
the contracted mutations is `Config`. Caller-supplied JSON values are `PyVal`
and the `int()` / `float()` coercions are `pyInt` / `pyFloat`. -/

/-- `DOTS_PER_MM = 8`. -/
def DOTS_PER_MM : Nat := 8

/-- `DOT_MIN = -300`. -/
def DOT_MIN : Int := -300

/-- `DOT_MAX = 300`. -/
def DOT_MAX : Int := 300

/-- The typed geometry state (`DEFAULT_CONFIG`'s shape). -/
structure Config where
  label_width_mm : Rat
  label_height_mm : Rat
  gap_mm : Rat
  x_offset : Int
  y_offset : Int
deriving DecidableEq

/-- `DEFAULT_CONFIG`. -/
def DEFAULT_CONFIG : Config :=
  { label_width_mm := 101.6, label_height_mm := 152.4, gap_mm := 2.5,
    x_offset := 32, y_offset := 0 }

/-- A JSON/Python runtime value as it appears in a request payload. -/
inductive PyVal where
  | int : Int → PyVal
  | float : Rat → PyVal
  | str : String → PyVal
  | none : PyVal
deriving DecidableEq

/-- Truncation toward zero, as Python's `int(float)`. -/
def ratTrunc (q : Rat) : Int :=
  if 0 ≤ q.num then q.num / (q.den : Int) else -((-q.num) / (q.den : Int))

/-- Python's `int(v)`: ints pass through, floats truncate, strings must be an
integer literal, `None` raises `TypeError`. -/
def pyInt : PyVal → Except String Int
  | .int n => .ok n
  | .float q => .ok (ratTrunc q)
  | .str s =>
    match String.toInt? s with
    | some n => .ok n
    | Option.none => .error (String.append "invalid literal for int() with base 10: " s)
  | .none => .error "int() argument must be a string or a number, not NoneType"

/-- String constant `"-"`. -/
def negStr : String := "-"

/-- String constant `"."`. -/
def dotStr : String := "."

/-- Decimal-literal parsing for Python's `float(str)` (optional sign, integer
part, optional fractional part; exotic forms like exponents are out of scope
for every claim). -/
def parseFloat? (s : String) : Option Rat :=
  let core : String → Option Rat := fun body =>
    match body.splitOn dotStr with
    | [ip] => (String.toNat? ip).map (fun n => (n : Rat))
    | [ip, fp] =>
      if ip.isEmpty && fp.isEmpty then Option.none
      else
        let ipv : Option Nat := if ip.isEmpty then some 0 else String.toNat? ip
        let fpv : Option (Nat × Nat) :=
          if fp.isEmpty then some (0, 0)
          else (String.toNat? fp).map (fun n => (n, fp.length))
        match ipv, fpv with
        | some a, some bf => some ((a : Rat) + (bf.1 : Rat) / ((10 : Rat) ^ bf.2))
        | _, _ => Option.none
    | _ => Option.none
  if s.startsWith negStr then (core (s.drop 1)).map (fun q => -q) else core s

/-- Python's `float(v)`. -/
def pyFloat : PyVal → Except String Rat
  | .int n => .ok (n : Rat)
  | .float q => .ok q
  | .str s =>
    match parseFloat? s with
    | some q => .ok q
    | Option.none => .error (String.append "could not convert string to float: " s)
  | .none => .error "float() argument must be a string or a number, not NoneType"

/-- Whether an `Except` is a success. -/
def exceptIsOk {ε α : Type} : Except ε α → Bool
  | .ok _ => true
  | .error _ => false

/-- The config keys a `POST /api/config` payload may carry
(keys outside `DEFAULT_CONFIG` are ignored by the handler's merge loop). -/
structure ConfigPayload where
  label_width_mm : Option PyVal
  label_height_mm : Option PyVal
  gap_mm : Option PyVal
  x_offset : Option PyVal
  y_offset : Option PyVal
deriving DecidableEq

/-- `if not payload:` — a payload carrying no config field is falsy. -/
def payloadEmpty (p : ConfigPayload) : Bool :=
  p.label_width_mm.isNone && p.label_height_mm.isNone && p.gap_mm.isNone
    && p.x_offset.isNone && p.y_offset.isNone

/-- `merged["x_offset"]` after the merge loop. -/
def mergedX (current : Config) (p : ConfigPayload) : PyVal :=
  p.x_offset.getD (PyVal.int current.x_offset)

/-- `merged["y_offset"]` after the merge loop. -/
def mergedY (current : Config) (p : ConfigPayload) : PyVal :=
  p.y_offset.getD (PyVal.int current.y_offset)

/-- `merged["label_width_mm"]` after the merge loop. -/
def mergedW (current : Config) (p : ConfigPayload) : PyVal :=
  p.label_width_mm.getD (PyVal.float current.label_width_mm)

/-- `merged["label_height_mm"]` after the merge loop. -/
def mergedH (current : Config) (p : ConfigPayload) : PyVal :=
  p.label_height_mm.getD (PyVal.float current.label_height_mm)

/-- `merged["gap_mm"]` after the merge loop. -/
def mergedG (current : Config) (p : ConfigPayload) : PyVal :=
  p.gap_mm.getD (PyVal.float current.gap_mm)

/-- The `POST` branch of `api_config`: merge the payload over the current
config, coerce the five numeric fields in source order inside one
`try/except`, answer 400 on the first coercion error (prior state untouched),
else save and return the merged config. No range clamp is applied here. -/
def api_config (current : Config) (payload : ConfigPayload) : Except String Config :=
  if payloadEmpty payload then .error "Invalid JSON"
  else
    match pyInt (mergedX current payload) with
    | .error e => .error (String.append "Invalid value: " e)
    | .ok xi =>
      match pyInt (mergedY current payload) with
      | .error e => .error (String.append "Invalid value: " e)
      | .ok yi =>
        match pyFloat (mergedW current payload) with
        | .error e => .error (String.append "Invalid value: " e)
        | .ok wf =>
          match pyFloat (mergedH current payload) with
          | .error e => .error (String.append "Invalid value: " e)
          | .ok hf =>
            match pyFloat (mergedG current payload) with
            | .error e => .error (String.append "Invalid value: " e)
            | .ok gf =>
              .ok { label_width_mm := wf, label_height_mm := hf, gap_mm := gf,
                    x_offset := xi, y_offset := yi }

/-- Python's builtin `round` to a whole number: round-half-to-even. -/
def roundHalfEven (q : Rat) : Int :=
  let f := q.floor
  let r := q - (f : Rat)
  if r < 1 / 2 then f
  else if 1 / 2 < r then f + 1
  else if f % 2 = 0 then f else f + 1

/-- The two axes `api_nudge` accepts. -/
inductive Axis where
  | x
  | y
deriving DecidableEq

/-- The saturating clamp `max(DOT_MIN, min(DOT_MAX, v))` used by `api_nudge`. -/
def clampDots (v : Int) : Int := max DOT_MIN (min DOT_MAX v)

/-- `api_nudge` after its input validation accepted `axis ∈ {"x","y"}` and a
numeric `mm`: `delta_dots = int(round(mm * DOTS_PER_MM))` added to the named
axis offset, clamped by `max(DOT_MIN, min(DOT_MAX, ...))`, saved, returned. -/
def api_nudge (cfg : Config) (axis : Axis) (mm : Rat) : Except String Config :=
  let delta_dots := roundHalfEven (mm * (DOTS_PER_MM : Rat))
  match axis with
  | .x => .ok { cfg with x_offset := clampDots (cfg.x_offset + delta_dots) }
  | .y => .ok { cfg with y_offset := clampDots (cfg.y_offset + delta_dots) }

/-! ### Rounding lemmas -/

lemma ratFloor_eq_floor (q : Rat) : q.floor = ⌊q⌋ :=
  (Rat.floor_def' q).trans Rat.floor_def.symm

lemma roundHalfEven_zero_of_abs_le_half (q : Rat) (h : |q| ≤ 1 / 2) :
    roundHalfEven q = 0 := by
  have h1 : -(1 / 2) ≤ q := by
    rcases abs_cases q with ⟨he, _⟩ | ⟨he, _⟩ <;> linarith
  have h2 : q ≤ 1 / 2 := by
    rcases abs_cases q with ⟨he, _⟩ | ⟨he, _⟩ <;> linarith
  rcases le_or_lt 0 q with hq | hq
  · have hf : ⌊q⌋ = 0 := by
      rw [Int.floor_eq_iff]
      constructor <;> push_cast <;> linarith
    have hr : q - ((⌊q⌋ : Int) : Rat) = q := by
      rw [hf]
      push_cast
      ring
    simp only [roundHalfEven, ratFloor_eq_floor, hr, hf]
    split_ifs with ha hb hc
    · rfl
    · exfalso
      linarith
    · rfl
    · exact absurd (by decide) hc
  · have hf : ⌊q⌋ = -1 := by
      rw [Int.floor_eq_iff]
      constructor <;> push_cast <;> linarith
    have hr : q - ((⌊q⌋ : Int) : Rat) = q + 1 := by
      rw [hf]
      push_cast
      ring
    simp only [roundHalfEven, ratFloor_eq_floor, hr, hf]
    split_ifs with ha hb hc
    · exfalso
      linarith
    · decide
    · exact absurd hc (by decide)
    · decide

lemma roundHalfEven_nonneg (q : Rat) (h : 0 ≤ q) : 0 ≤ roundHalfEven q := by
  have hf : 0 ≤ ⌊q⌋ := Int.floor_nonneg.mpr h
  simp only [roundHalfEven, ratFloor_eq_floor]
  split_ifs <;> omega

lemma roundHalfEven_one_mul_dots : roundHalfEven ((1 : Rat) * (DOTS_PER_MM : Nat)) = 8 := by
  have he : ((1 : Rat) * ((DOTS_PER_MM : Nat) : Rat)) = ((8 : Int) : Rat) := by
    norm_num [DOTS_PER_MM]
  simp only [roundHalfEven, ratFloor_eq_floor, he, Int.floor_intCast]
  norm_num

/-! ### Claim theorems C4, C5, C6, C10 -/

/-- Counterexample to C4 as stated: a `setGeometry`/config update with
`x_offset = 1000` is accepted verbatim — `api_config` coerces to `int` but
applies no range clamp, so the stored offset leaves `[-300, 300]`. -/
theorem offset_range_counterexample :
    api_config DEFAULT_CONFIG
        { label_width_mm := Option.none, label_height_mm := Option.none,
          gap_mm := Option.none, x_offset := some (PyVal.int 1000),
          y_offset := Option.none }
      = Except.ok { label_width_mm := 101.6, label_height_mm := 152.4, gap_mm := 2.5,
                    x_offset := 1000, y_offset := 0 }
    ∧ ¬ ((1000 : Int) ≤ DOT_MAX) := by
  refine ⟨rfl, ?_⟩
  decide

/-- C4 amended: after every nudge the nudged axis offset is an integer in
`[-300, 300]`; config updates coerce offsets with `int()` but do not clamp
them into any range. -/
theorem offset_range_after_nudge (cfg : Config) (axis : Axis) (mm : Rat) (cfg' : Config)
    (h : api_nudge cfg axis mm = Except.ok cfg') :
    (axis = Axis.x → DOT_MIN ≤ cfg'.x_offset ∧ cfg'.x_offset ≤ DOT_MAX)
    ∧ (axis = Axis.y → DOT_MIN ≤ cfg'.y_offset ∧ cfg'.y_offset ≤ DOT_MAX) := by
  cases axis
  · simp only [api_nudge] at h
    injection h with h
    subst h
    refine ⟨fun _ => ?_, fun hcon => absurd hcon (by decide)⟩
    show DOT_MIN ≤ clampDots _ ∧ clampDots _ ≤ DOT_MAX
    unfold clampDots DOT_MIN DOT_MAX
    omega
  · simp only [api_nudge] at h
    injection h with h
    subst h
    refine ⟨fun hcon => absurd hcon (by decide), fun _ => ?_⟩
    show DOT_MIN ≤ clampDots _ ∧ clampDots _ ≤ DOT_MAX
    unfold clampDots DOT_MIN DOT_MAX
    omega

/-- Witness for C4 amended: nudging `x` from the default config by 100mm
clamps into the range. -/
theorem offset_range_after_nudge_witness :
    (Axis.x = Axis.x →
      DOT_MIN ≤ (Config.mk 101.6 152.4 2.5 (clampDots (32 + roundHalfEven ((100 : Rat) * (DOTS_PER_MM : Nat)))) 0).x_offset
      ∧ (Config.mk 101.6 152.4 2.5 (clampDots (32 + roundHalfEven ((100 : Rat) * (DOTS_PER_MM : Nat)))) 0).x_offset ≤ DOT_MAX)
    ∧ (Axis.x = Axis.y →
      DOT_MIN ≤ (Config.mk 101.6 152.4 2.5 (clampDots (32 + roundHalfEven ((100 : Rat) * (DOTS_PER_MM : Nat)))) 0).y_offset
      ∧ (Config.mk 101.6 152.4 2.5 (clampDots (32 + roundHalfEven ((100 : Rat) * (DOTS_PER_MM : Nat)))) 0).y_offset ≤ DOT_MAX) :=
  offset_range_after_nudge DEFAULT_CONFIG Axis.x 100 _ rfl

/-- C5: `api_nudge` converts millimeters to dots at 8 dots/mm with Python
rounding, adds the delta to the named axis offset, clamps it into
`[DOT_MIN, DOT_MAX]`, and never errors; a +1.0mm `x` nudge adds exactly 8
dots when that stays in range, and at the upper bound a further nonnegative
nudge settles exactly at the bound. -/
theorem nudge_behaviour (cfg : Config) (mm : Rat) :
    (api_nudge cfg Axis.x mm = Except.ok { cfg with x_offset := clampDots (cfg.x_offset + roundHalfEven (mm * (DOTS_PER_MM : Nat))) })
    ∧ (api_nudge cfg Axis.y mm = Except.ok { cfg with y_offset := clampDots (cfg.y_offset + roundHalfEven (mm * (DOTS_PER_MM : Nat))) })
    ∧ roundHalfEven ((1 : Rat) * (DOTS_PER_MM : Nat)) = 8
    ∧ (DOT_MIN ≤ cfg.x_offset + 8 → cfg.x_offset + 8 ≤ DOT_MAX →
        api_nudge cfg Axis.x 1 = Except.ok { cfg with x_offset := cfg.x_offset + 8 })
    ∧ (∀ c, api_nudge cfg Axis.x mm = Except.ok c → c.x_offset ≤ DOT_MAX)
    ∧ (cfg.x_offset = DOT_MAX → 0 ≤ mm →
        api_nudge cfg Axis.x mm = Except.ok { cfg with x_offset := DOT_MAX }) := by
  refine ⟨rfl, rfl, roundHalfEven_one_mul_dots, ?_, ?_, ?_⟩
  · intro h1 h2
    have hc : clampDots (cfg.x_offset + roundHalfEven ((1 : Rat) * (DOTS_PER_MM : Nat)))
        = cfg.x_offset + 8 := by
      rw [roundHalfEven_one_mul_dots]
      unfold clampDots DOT_MIN DOT_MAX at *
      omega
    calc api_nudge cfg Axis.x 1
        = Except.ok { cfg with x_offset := clampDots (cfg.x_offset + roundHalfEven ((1 : Rat) * (DOTS_PER_MM : Nat))) } := rfl
      _ = Except.ok { cfg with x_offset := cfg.x_offset + 8 } := by rw [hc]
  · intro c hc
    simp only [api_nudge] at hc
    injection hc with hc
    subst hc
    show clampDots _ ≤ DOT_MAX
    unfold clampDots DOT_MIN DOT_MAX
    omega
  · intro hx hmm
    have hd : 0 ≤ roundHalfEven (mm * (DOTS_PER_MM : Nat)) :=
      roundHalfEven_nonneg _ (by positivity)
    have hc : clampDots (cfg.x_offset + roundHalfEven (mm * (DOTS_PER_MM : Nat))) = DOT_MAX := by
      rw [hx]
      unfold clampDots DOT_MIN DOT_MAX at *
      omega
    calc api_nudge cfg Axis.x mm
        = Except.ok { cfg with x_offset := clampDots (cfg.x_offset + roundHalfEven (mm * (DOTS_PER_MM : Nat))) } := rfl
      _ = Except.ok { cfg with x_offset := DOT_MAX } := by rw [hc]

/-- Witness for C5: from the default config (`x_offset = 32`), a +1.0mm `x`
nudge lands on 40; from the bound, a +1.0mm nudge stays at the bound. -/
theorem nudge_behaviour_witness :
    api_nudge DEFAULT_CONFIG Axis.x 1
        = Except.ok { DEFAULT_CONFIG with x_offset := DEFAULT_CONFIG.x_offset + 8 }
    ∧ api_nudge { DEFAULT_CONFIG with x_offset := DOT_MAX } Axis.x 1
        = Except.ok { DEFAULT_CONFIG with x_offset := DOT_MAX } :=
  ⟨(nudge_behaviour DEFAULT_CONFIG 1).2.2.2.1 (by decide) (by decide),
   (nudge_behaviour { DEFAULT_CONFIG with x_offset := DOT_MAX } 1).2.2.2.2.2 rfl
     (by norm_num)⟩

/-- C6: a config update in which every supplied numeric field coerces to its
expected kind is applied in full (the merged five-field config is stored), and
an update in which any field fails to coerce is rejected as a whole with an
error — the prior state is never partially overwritten. -/
theorem set_geometry_atomicity (current : Config) (p : ConfigPayload)
    (hne : payloadEmpty p = false) :
    (∀ xi yi wf hf gf,
        pyInt (mergedX current p) = Except.ok xi →
        pyInt (mergedY current p) = Except.ok yi →
        pyFloat (mergedW current p) = Except.ok wf →
        pyFloat (mergedH current p) = Except.ok hf →
        pyFloat (mergedG current p) = Except.ok gf →
        api_config current p = Except.ok
          { label_width_mm := wf, label_height_mm := hf, gap_mm := gf,
            x_offset := xi, y_offset := yi })
    ∧ ((exceptIsOk (pyInt (mergedX current p)) = false
        ∨ exceptIsOk (pyInt (mergedY current p)) = false
        ∨ exceptIsOk (pyFloat (mergedW current p)) = false
        ∨ exceptIsOk (pyFloat (mergedH current p)) = false
        ∨ exceptIsOk (pyFloat (mergedG current p)) = false) →
        exceptIsOk (api_config current p) = false) := by
  constructor
  · intro xi yi wf hf gf hx hy hw hh hg
    unfold api_config
    rw [if_neg (by simp [hne]), hx, hy, hw, hh, hg]
  · intro hfail
    unfold api_config
    rw [if_neg (by simp [hne])]
    rcases hx : pyInt (mergedX current p) with e | xi
    · rfl
    · rcases hy : pyInt (mergedY current p) with e | yi
      · rfl
      · rcases hw : pyFloat (mergedW current p) with e | wf
        · rfl
        · rcases hh : pyFloat (mergedH current p) with e | hfv
          · rfl
          · rcases hg : pyFloat (mergedG current p) with e | gf
            · rfl
            · exfalso
              rcases hfail with hf' | hf' | hf' | hf' | hf' <;>
                simp [hx, hy, hw, hh, hg, exceptIsOk] at hf'

/-- Witness for C6: supplying only a parsable width applies the full merged
update over the default config. -/
theorem set_geometry_atomicity_witness :
    api_config DEFAULT_CONFIG
        { label_width_mm := some (PyVal.float 80), label_height_mm := Option.none,
          gap_mm := Option.none, x_offset := Option.none, y_offset := Option.none }
      = Except.ok { label_width_mm := 80, label_height_mm := 152.4, gap_mm := 2.5,
                    x_offset := 32, y_offset := 0 } :=
  (set_geometry_atomicity DEFAULT_CONFIG
      { label_width_mm := some (PyVal.float 80), label_height_mm := Option.none,
        gap_mm := Option.none, x_offset := Option.none, y_offset := Option.none }
      rfl).1 32 0 80 152.4 2.5 rfl rfl rfl rfl rfl

/-- C10 (implicit): a nudge mutates only the named axis offset — label width,
height, gap and the other axis offset are untouched — the nudge always
reports success, and since the millimeter delta is rounded to a whole dot,
any nudge with `|mm| < 1/16` leaves an in-range geometry state entirely
unchanged. -/
theorem nudge_frame_and_subdot_rounding (cfg : Config) (axis : Axis) (mm : Rat) (cfg' : Config)
    (h : api_nudge cfg axis mm = Except.ok cfg') :
    cfg'.label_width_mm = cfg.label_width_mm
    ∧ cfg'.label_height_mm = cfg.label_height_mm
    ∧ cfg'.gap_mm = cfg.gap_mm
    ∧ (axis = Axis.x → cfg'.y_offset = cfg.y_offset)
    ∧ (axis = Axis.y → cfg'.x_offset = cfg.x_offset)
    ∧ exceptIsOk (api_nudge cfg axis mm) = true
    ∧ (|mm| < 1 / 16 →
        DOT_MIN ≤ cfg.x_offset → cfg.x_offset ≤ DOT_MAX →
        DOT_MIN ≤ cfg.y_offset → cfg.y_offset ≤ DOT_MAX → cfg' = cfg) := by
  have hzero : |mm| < 1 / 16 → roundHalfEven (mm * (DOTS_PER_MM : Nat)) = 0 := by
    intro hsmall
    apply roundHalfEven_zero_of_abs_le_half
    rw [abs_mul]
    have h8 : |((DOTS_PER_MM : Nat) : Rat)| = 8 := by norm_num [DOTS_PER_MM]
    rw [h8]
    linarith
  cases axis
  · simp only [api_nudge] at h
    injection h with h
    subst h
    refine ⟨rfl, rfl, rfl, fun _ => rfl, fun hcon => absurd hcon (by decide),
      rfl, ?_⟩
    intro hsmall hx1 hx2 _ _
    rw [hzero hsmall]
    have hcl : clampDots (cfg.x_offset + 0) = cfg.x_offset := by
      unfold clampDots DOT_MIN DOT_MAX at *
      omega
    rw [hcl]
  · simp only [api_nudge] at h
    injection h with h
    subst h
    refine ⟨rfl, rfl, rfl, fun hcon => absurd hcon (by decide), fun _ => rfl,
      rfl, ?_⟩
    intro hsmall _ _ hy1 hy2
    rw [hzero hsmall]
    have hcl : clampDots (cfg.y_offset + 0) = cfg.y_offset := by
      unfold clampDots DOT_MIN DOT_MAX at *
      omega
    rw [hcl]

/-- Witness for C10: a +0.01mm `x` nudge of the default config changes
nothing and reports success. -/
theorem nudge_frame_and_subdot_rounding_witness :
    (Config.mk 101.6 152.4 2.5 (clampDots (32 + roundHalfEven ((1 / 100 : Rat) * (DOTS_PER_MM : Nat)))) 0).label_width_mm
      = DEFAULT_CONFIG.label_width_mm
    ∧ (Config.mk 101.6 152.4 2.5 (clampDots (32 + roundHalfEven ((1 / 100 : Rat) * (DOTS_PER_MM : Nat)))) 0).label_height_mm
      = DEFAULT_CONFIG.label_height_mm
    ∧ (Config.mk 101.6 152.4 2.5 (clampDots (32 + roundHalfEven ((1 / 100 : Rat) * (DOTS_PER_MM : Nat)))) 0).gap_mm
      = DEFAULT_CONFIG.gap_mm
    ∧ (Axis.x = Axis.x →
        (Config.mk 101.6 152.4 2.5 (clampDots (32 + roundHalfEven ((1 / 100 : Rat) * (DOTS_PER_MM : Nat)))) 0).y_offset
        = DEFAULT_CONFIG.y_offset)
    ∧ (Axis.x = Axis.y →
        (Config.mk 101.6 152.4 2.5 (clampDots (32 + roundHalfEven ((1 / 100 : Rat) * (DOTS_PER_MM : Nat)))) 0).x_offset
        = DEFAULT_CONFIG.x_offset)
    ∧ exceptIsOk (api_nudge DEFAULT_CONFIG Axis.x (1 / 100)) = true
    ∧ (|(1 / 100 : Rat)| < 1 / 16 →
        DOT_MIN ≤ DEFAULT_CONFIG.x_offset → DEFAULT_CONFIG.x_offset ≤ DOT_MAX →
        DOT_MIN ≤ DEFAULT_CONFIG.y_offset → DEFAULT_CONFIG.y_offset ≤ DOT_MAX →
        Config.mk 101.6 152.4 2.5 (clampDots (32 + roundHalfEven ((1 / 100 : Rat) * (DOTS_PER_MM : Nat)))) 0
        = DEFAULT_CONFIG) :=
  nudge_frame_and_subdot_rounding DEFAULT_CONFIG Axis.x (1 / 100) _ rfl

/-! ## Label template engine (`LabelTemplates.simple_text` in
`src/files/opt/thermal-printer/print_server.py`)

Python strings are character lists here: `line.replace('"', '\\"')` is
`escapeQuotes`, slicing `[:n]` is `List.take`. Commands are structured as
`TsplCmd` values carrying the numeric arguments and quoted content of the
corresponding TSPL lines. -/

/-- `line.replace('"', '\\"')`: every double quote becomes backslash-quote. -/
def escapeQuotes : List Char → List Char
  | [] => []
  | c :: rest =>
    if c = '"' then '\\' :: '"' :: escapeQuotes rest
    else c :: escapeQuotes rest

/-- One TSPL command line of the `simple_text` template. -/
inductive TsplCmd where
  | size
  | gap
  | cls
  | text (x y : Nat) (font : Nat) (content : List Char)
  | bar (x y w h : Nat)
  | print1

/-- The loop `for line in lines[:8]` of `simple_text`: one
`TEXT 50,{y},"2",0,1,1,"{safe}"` per line, `y` starting at 110 and stepping
by 55, content escaped then truncated to 40 characters. -/
def simpleTextBody : List (List Char) → Nat → List TsplCmd
  | [], _ => []
  | line :: rest, y =>
    TsplCmd.text 50 y 2 ((escapeQuotes line).take 40) :: simpleTextBody rest (y + 55)

/-- `LabelTemplates.simple_text(lines, title)`: SIZE, GAP, CLS, title TEXT,
BAR, at most 8 body TEXT lines, PRINT 1,1. -/
def simple_text (lines : List (List Char)) (title : List Char) : List TsplCmd :=
  [TsplCmd.size, TsplCmd.gap, TsplCmd.cls, TsplCmd.text 50 30 3 title,
    TsplCmd.bar 50 80 400 4]
    ++ simpleTextBody (lines.take 8) 110
    ++ [TsplCmd.print1]

/-! ### Template lemmas -/

lemma escapeQuotes_length_ge : ∀ l : List Char, l.length ≤ (escapeQuotes l).length := by
  intro l
  induction l with
  | nil => simp [escapeQuotes]
  | cons c rest ih =>
    by_cases hc : c = '"'
    · simp only [escapeQuotes, if_pos hc, List.length_cons]
      omega
    · simp only [escapeQuotes, if_neg hc, List.length_cons]
      omega

lemma escapeQuotes_escaped : ∀ (l : List Char) (i : Nat),
    i < (escapeQuotes l).length →
    (escapeQuotes l).getD i ' ' = '"' →
    0 < i ∧ (escapeQuotes l).getD (i - 1) ' ' = '\\' := by
  intro l
  induction l with
  | nil =>
    intro i hi
    simp [escapeQuotes] at hi
  | cons c rest ih =>
    intro i hi hq
    by_cases hc : c = '"'
    · simp only [escapeQuotes, if_pos hc] at hi hq ⊢
      match i with
      | 0 =>
        rw [List.getD_cons_zero] at hq
        exact absurd hq (by decide)
      | 1 =>
        exact ⟨by omega, by rw [List.getD_cons_zero]⟩
      | (j + 2) =>
        rw [List.getD_cons_succ, List.getD_cons_succ] at hq
        simp only [List.length_cons] at hi
        obtain ⟨hjpos, hprev⟩ := ih j (by omega) hq
        refine ⟨by omega, ?_⟩
        rw [show j + 2 - 1 = j + 1 from by omega, List.getD_cons_succ,
          show j = (j - 1) + 1 from by omega, List.getD_cons_succ]
        exact hprev
    · simp only [escapeQuotes, if_neg hc] at hi hq ⊢
      match i with
      | 0 =>
        rw [List.getD_cons_zero] at hq
        exact absurd hq hc
      | (j + 1) =>
        rw [List.getD_cons_succ] at hq
        simp only [List.length_cons] at hi
        obtain ⟨hjpos, hprev⟩ := ih j (by omega) hq
        refine ⟨by omega, ?_⟩
        rw [show j + 1 - 1 = j from by omega,
          show j = (j - 1) + 1 from by omega, List.getD_cons_succ]
        exact hprev

lemma simpleTextBody_length : ∀ (ls : List (List Char)) (y : Nat),
    (simpleTextBody ls y).length = ls.length := by
  intro ls
  induction ls with
  | nil => intro y; rfl
  | cons line rest ih =>
    intro y
    simp only [simpleTextBody, List.length_cons, ih]

lemma simpleTextBody_getD : ∀ (ls : List (List Char)) (y i : Nat), i < ls.length →
    (simpleTextBody ls y).getD i TsplCmd.cls
      = TsplCmd.text 50 (y + 55 * i) 2 ((escapeQuotes (ls.getD i [])).take 40) := by
  intro ls
  induction ls with
  | nil => intro y i hi; simp at hi
  | cons line rest ih =>
    intro y i hi
    match i with
    | 0 =>
      simp only [simpleTextBody, List.getD_cons_zero, Nat.mul_zero, Nat.add_zero]
    | (j + 1) =>
      simp only [simpleTextBody, List.getD_cons_succ]
      rw [ih (y + 55) j (by simpa using hi)]
      congr 1
      omega

/-! ### Claim theorem C9 -/

/-- C9: `simple_text` emits exactly `min lines.length 8` body lines (lines
beyond 8 are silently dropped), each emitted body line is the input line
quote-escaped and truncated to the 40-character budget (a 100-character line
comes out at exactly 40), and in every emitted body text each double quote is
preceded by a backslash, so it cannot terminate the quoted TSPL argument. -/
theorem plain_text_truncation_escaping (lines : List (List Char)) (title : List Char) :
    (simple_text lines title).length = 6 + min lines.length 8
    ∧ (∀ i, i < min lines.length 8 →
        (simple_text lines title).getD (5 + i) TsplCmd.cls
          = TsplCmd.text 50 (110 + 55 * i) 2 ((escapeQuotes (lines.getD i [])).take 40))
    ∧ (∀ line : List Char, ((escapeQuotes line).take 40).length ≤ 40)
    ∧ (∀ line : List Char, 40 ≤ line.length → ((escapeQuotes line).take 40).length = 40)
    ∧ (∀ (line : List Char) (i : Nat), i < ((escapeQuotes line).take 40).length →
        ((escapeQuotes line).take 40).getD i ' ' = '"' →
        0 < i ∧ ((escapeQuotes line).take 40).getD (i - 1) ' ' = '\\') := by
  refine ⟨?_, ?_, ?_, ?_, ?_⟩
  · simp [simple_text, simpleTextBody_length, Nat.min_comm]
    omega
  · intro i hi
    unfold simple_text
    have hlen : i < (simpleTextBody (lines.take 8) 110).length := by
      rw [simpleTextBody_length]
      simpa [Nat.min_comm] using hi
    rw [List.getD_append _ _ _ _ (by simp [simpleTextBody_length]; omega)]
    rw [List.getD_append_right _ _ _ _ (by simp)]
    have h5 : 5 + i - ([TsplCmd.size, TsplCmd.gap, TsplCmd.cls,
        TsplCmd.text 50 30 3 title, TsplCmd.bar 50 80 400 4]).length = i := by
      simp
    rw [h5, simpleTextBody_getD (lines.take 8) 110 i (by simpa [Nat.min_comm] using hi)]
    have htake : (lines.take 8).getD i [] = lines.getD i [] := by
      rcases Nat.lt_or_ge i lines.length with hil | hil
      · rw [List.getD_eq_getElem _ _ (by simp; omega), List.getD_eq_getElem _ _ (by omega)]
        exact List.getElem_take _
      · omega
    rw [htake]
  · intro line
    simp
  · intro line hlen
    have := escapeQuotes_length_ge line
    simp
    omega
  · intro line i hi hq
    have hi' : i < (escapeQuotes line).length := by
      simp at hi
      omega
    have hgd : ∀ j, j < 40 → ((escapeQuotes line).take 40).getD j ' '
        = (escapeQuotes line).getD j ' ' := by
      intro j hj
      rcases Nat.lt_or_ge j (escapeQuotes line).length with hjl | hjl
      · rw [List.getD_eq_getElem _ _ (by simp; omega), List.getD_eq_getElem _ _ hjl]
        exact List.getElem_take _
      · rw [List.getD_eq_default _ _ (by simp; omega), List.getD_eq_default _ _ hjl]
    have hi40 : i < 40 := by
      simp at hi
      omega
    rw [hgd i hi40] at hq
    have hrec := escapeQuotes_escaped line i hi' hq
    refine ⟨hrec.1, ?_⟩
    rw [hgd (i - 1) (by omega)]
    exact hrec.2

/-- Witness for C9: a 100-character line is emitted at exactly 40 characters,
and 12 supplied lines yield exactly `6 + min 12 8` commands. -/
theorem plain_text_truncation_escaping_witness :
    ((escapeQuotes (List.replicate 100 'a')).take 40).length = 40
    ∧ (simple_text (List.replicate 12 ['a']) []).length = 6 + min 12 8 :=
  ⟨(plain_text_truncation_escaping [] []).2.2.2.1 (List.replicate 100 'a') (by simp),
   (plain_text_truncation_escaping (List.replicate 12 ['a']) []).1⟩

end ThermalPrinter
